import Mathlib

/-!
# Verification of the cooperative process scheduler

The repository ships the scheduler as design notes (`src/design/process`)
rather than compiled code, so the executable model below is built from the
specification's description of the data model (§3), the process contract
(§4.1), the registry (§4.2), the state-transition engine (§4.3) and the
dispatcher (§4.4), together with the pseudocode in the design notes
(`create_process`, `pause_process` from inside `update`, the `delayed_event`
and `chain_parent`/`chain_child` examples).

All definitions are executable; theorems about the claims follow the
definitions.
-/

set_option autoImplicit false

/-- Modelled from the spec: the four public process states of §3/§4.3 plus
the internal pre-`initialize` placeholder state (`process_state::inactive`
in the design notes' `create_process` pseudocode). -/
inductive PState where
  | inactive
  | waiting
  | active
  | paused
  | dead
deriving DecidableEq, Repr

/-- Modelled from the spec: the two cadences of §3 (`PER_FRAME | PER_TICK`). -/
inductive Cadence where
  | per_frame
  | per_tick
deriving DecidableEq, Repr

/-- Modelled from the spec: the state-transition requests of §4.1 that a
process may issue (on itself via its own PID, or on another PID through the
façade), plus child creation (§4.2/§4.4).  `create` names the concrete
process variant by an index into the environment of process specifications,
mirroring `create_process<T>`. -/
inductive Cmd where
  | sleep (n : Nat)
  | wait_for (target : Nat)
  | kill (pid : Nat)
  | kill_after (n : Nat)
  | periodic_sleep (n : Nat)
  | pause_process (pid : Nat) (n : Nat)
  | create (specIdx : Nat)
deriving DecidableEq, Repr

/-- Modelled from the spec: the per-process record of §3 — identity (PID),
parent back-reference, state, cadence, optional wait-target, pause counter,
the `PERIODIC_SLEEP` and `KILL_AFTER` flags, plus the bookkeeping the
dispatcher needs (`runCount`, and the ran-this-pass mark used by the
post-run `KILL_AFTER` accounting of §4.4 step 3). -/
structure Process where
  pid : Nat
  parent : Option Nat
  specIdx : Nat
  state : PState
  cadence : Cadence
  waitTarget : Option Nat
  pauseLeft : Nat
  periodicN : Option Nat
  sliceCounter : Nat
  killAfterLeft : Option Nat
  runCount : Nat
  ranFlag : Bool
deriving DecidableEq, Repr

/-- Modelled from the spec: a concrete process variant `T` of
`create_process<T>` — its cadence, its `initialize()` hook (given its own
fresh PID and its parent PID) and its single `update()` entry point (given
its own PID and the number of times it has run before), each returning the
state-transition requests it issues (§4.1, §6). -/
structure ProcSpec where
  cadence : Cadence
  onInit : Nat → Option Nat → List Cmd
  onUpdate : Nat → Nat → List Cmd

/-- Modelled from the spec: the process registry / scheduler state (§3, §4.2):
the PID-keyed storage, the fresh-PID counter, and two observation logs —
`invLog` records every `update()` invocation the dispatcher performs
(PID and the state the process was in at the moment of invocation) and
`initLog` records every `initialize()` invocation. -/
structure Scheduler where
  procs : List Process
  nextPid : Nat
  invLog : List (Nat × PState)
  initLog : List Nat
deriving DecidableEq, Repr

/-- Modelled from the spec: registry lookup `get(pid) -> optional reference`
(§4.2) — total, returns `none` for unknown or already-destroyed PIDs. -/
def Scheduler.get (s : Scheduler) (pid : Nat) : Option Process :=
  s.procs.find? (fun p => decide (p.pid = pid))

/-- The empty registry at engine start (§9). -/
def Scheduler.empty : Scheduler :=
  { procs := [], nextPid := 0, invLog := [], initLog := [] }

/-- Modelled from the spec: in-place modification of the process with the
given PID; all cross-process mutation is routed through PID-addressed
registry operations (§4.1, §9), a lookup-miss being a no-op (§7). -/
def modifyProc (s : Scheduler) (pid : Nat) (f : Process → Process) : Scheduler :=
  { s with procs := s.procs.map (fun p => if p.pid = pid then f p else p) }

/-- Modelled from the spec: the effect of each §4.1 state-transition request,
issued by the process with PID `selfPid`.  `sleep`/`wait_for`/`kill_after`/
`periodic_sleep` act on the issuer itself, `kill` and `pause_process` act on
an explicit PID.  `create` is handled by the command interpreter. -/
def applySimpleCmd (selfPid : Nat) (c : Cmd) (s : Scheduler) : Scheduler :=
  match c with
  | Cmd.sleep n =>
      modifyProc s selfPid (fun p => { p with state := PState.paused, pauseLeft := n })
  | Cmd.wait_for t =>
      modifyProc s selfPid (fun p => { p with state := PState.waiting, waitTarget := some t })
  | Cmd.kill pid =>
      modifyProc s pid (fun p => { p with state := PState.dead })
  | Cmd.kill_after n =>
      modifyProc s selfPid (fun p => { p with killAfterLeft := some n })
  | Cmd.periodic_sleep n =>
      modifyProc s selfPid (fun p => { p with periodicN := some n, sliceCounter := 0 })
  | Cmd.pause_process pid n =>
      modifyProc s pid (fun p => { p with state := PState.paused, pauseLeft := n })
  | Cmd.create _ => s

/-- Modelled from the spec: the promotion step of `create_process` — if the
process state was not changed by the initialization it is switched from the
`inactive` placeholder to `active` (design notes, `create_process`). -/
def promoteProc (p : Process) : Process :=
  if p.state = PState.inactive then { p with state := PState.active } else p

/-- Promotion applied through the registry. -/
def promote (s : Scheduler) (pid : Nat) : Scheduler :=
  modifyProc s pid promoteProc

/-- Modelled from the spec: a freshly allocated process record (§3): given
PID, recorded parent, variant index, placeholder state, cadence fixed at
creation, no wait-target and no flags. -/
def mkProc (pid : Nat) (parent : Option Nat) (idx : Nat) (sp : ProcSpec) : Process :=
  { pid := pid, parent := parent, specIdx := idx,
    state := PState.inactive, cadence := sp.cadence, waitTarget := none,
    pauseLeft := 0, periodicN := none, sliceCounter := 0,
    killAfterLeft := none, runCount := 0, ranFlag := false }

/-- Modelled from the spec: allocation of a fresh process record inside
`create_process<T>` (§4.2): fresh PID from the counter, recorded parent,
placeholder state, cadence fixed at creation; the `initialize()` invocation
is recorded in `initLog`. -/
def insertNew (s : Scheduler) (parent : Option Nat) (idx : Nat) (sp : ProcSpec) : Scheduler :=
  { s with
      procs := s.procs ++ [mkProc s.nextPid parent idx sp],
      nextPid := s.nextPid + 1,
      initLog := s.initLog ++ [s.nextPid] }

/-- Modelled from the spec: interpretation of the command list issued by one
`initialize()` or `update()` invocation, by the process with PID `selfPid`.
Child creation is delegated to the `spawnF` argument (tied to the recursive
spawner below). -/
def runLevel (spawnF : Option Nat → Nat → Scheduler → Scheduler) (selfPid : Nat) :
    List Cmd → Scheduler → Scheduler
  | [], s => s
  | Cmd.create idx :: rest, s =>
      runLevel spawnF selfPid rest (spawnF (some selfPid) idx s)
  | c :: rest, s =>
      runLevel spawnF selfPid rest (applySimpleCmd selfPid c s)

/-- Modelled from the spec: the body of `create_process<T>` after allocation
— run the `initialize()` hook of the new process (which may itself create
children through `spawnF`). -/
def spawnCore (spawnF : Option Nat → Nat → Scheduler → Scheduler)
    (parent : Option Nat) (idx : Nat) (sp : ProcSpec) (s : Scheduler) : Scheduler :=
  runLevel spawnF s.nextPid (sp.onInit s.nextPid parent) (insertNew s parent idx sp)

/-- Modelled from the spec: `create_process<T>(parent_pid, ...)` (§4.2 and the
design notes' pseudocode): allocate with a fresh PID, run `initialize()`,
then promote to `active` if the state is still the `inactive` placeholder.
`fuel` bounds the depth of nested creations (allocation exhaustion is fatal
and out of the recovery contract, §4.2/§7). -/
def spawnFuel (env : List ProcSpec) : Nat → Option Nat → Nat → Scheduler → Scheduler
  | 0, _, _, s => s
  | Nat.succ f, parent, idx, s =>
      match env.get? idx with
      | none => s
      | some sp => promote (spawnCore (spawnFuel env f) parent idx sp s) s.nextPid

/-- Modelled from the spec: the façade operation
`create_process<T>(parent_pid, args...) -> PID` (§4.2, §6). -/
def create_process (env : List ProcSpec) (fuel : Nat) (parent : Option Nat) (idx : Nat)
    (s : Scheduler) : Scheduler × Option Nat :=
  match fuel, env.get? idx with
  | 0, _ => (s, none)
  | _, none => (s, none)
  | Nat.succ f, some _ => (spawnFuel env (Nat.succ f) parent idx s, some s.nextPid)

/-- Modelled from the spec: is a wait-target gone — `DEAD` or no longer in
the registry (treated as already satisfied, §4.1/§4.3)? -/
def targetGone (s : Scheduler) : Option Nat → Bool
  | none => true
  | some t =>
      match s.get t with
      | none => true
      | some q => decide (q.state = PState.dead)

/-- Modelled from the spec: one step of the state-transition engine (§4.3)
for a single process, evaluated against the registry snapshot `s`:
`WAITING → ACTIVE` when the wait-target is dead or absent; `PAUSED → ACTIVE`
when the pause counter reaches 0 (else decrement); `ACTIVE → PAUSED`
(duration 1) on a `PERIODIC_SLEEP` skip slice; `DEAD` is terminal. -/
def transitionStep (s : Scheduler) (p : Process) : Process :=
  match p.state with
  | PState.waiting =>
      if targetGone s p.waitTarget then { p with state := PState.active } else p
  | PState.paused =>
      if p.pauseLeft = 0 then { p with state := PState.active }
      else { p with pauseLeft := p.pauseLeft - 1 }
  | PState.active =>
      match p.periodicN with
      | some n =>
          if n ≤ 1 then { p with sliceCounter := p.sliceCounter + 1 }
          else if (p.sliceCounter + 1) % n = 0 then { p with sliceCounter := p.sliceCounter + 1 }
          else { p with sliceCounter := p.sliceCounter + 1,
                        state := PState.paused, pauseLeft := 1 }
      | none => p
  | _ => p

/-- Modelled from the spec: the state-transition pass (§4.3/§4.4 step 1) over
all processes of the given cadence, run strictly before the dispatch pass. -/
def transitionPass (c : Cadence) (s : Scheduler) : Scheduler :=
  { s with procs := s.procs.map (fun p => if p.cadence = c then transitionStep s p else p) }

/-- Modelled from the spec: one visit of the execution pass (§4.4 step 2):
look the PID up, and only if the process is currently `ACTIVE` invoke its
`update()` callback — recording the invocation, bumping the run count,
marking it as having run this pass, and interpreting the commands it
issues. -/
def execVisit (env : List ProcSpec) (fuel : Nat) (s : Scheduler) (pid : Nat) : Scheduler :=
  match s.get pid with
  | none => s
  | some p =>
      if p.state = PState.active then
        match env.get? p.specIdx with
        | none => s
        | some sp =>
            let s1 := { s with invLog := s.invLog ++ [(pid, p.state)] }
            let s2 := modifyProc s1 pid
              (fun q => { q with runCount := q.runCount + 1, ranFlag := true })
            runLevel (spawnFuel env fuel) pid (sp.onUpdate pid p.runCount) s2
      else s

/-- Modelled from the spec: the execution pass (§4.4 step 2): iterate over a
snapshot of the PIDs of this cadence taken after the transition pass —
mutation may be requested mid-pass but nothing is structurally removed, and
insertions become visible only on the next pass (§3, §4.2). -/
def executionPass (env : List ProcSpec) (fuel : Nat) (c : Cadence) (s : Scheduler) : Scheduler :=
  ((s.procs.filter (fun p => decide (p.cadence = c))).map Process.pid).foldl
    (execVisit env fuel) s

/-- Modelled from the spec: post-run `KILL_AFTER` accounting for one process
(§4.4 step 3): if it ran this pass and carries the flag, decrement the
remaining count and mark `DEAD` on reaching zero; the ran-this-pass mark is
cleared. -/
def accountProc (p : Process) : Process :=
  if p.ranFlag then
    match p.killAfterLeft with
    | some k =>
        { p with ranFlag := false, killAfterLeft := some (k - 1),
                 state := if k - 1 = 0 then PState.dead else p.state }
    | none => { p with ranFlag := false }
  else p

/-- Modelled from the spec: the post-run accounting pass (§4.4 step 3). -/
def accountingPass (s : Scheduler) : Scheduler :=
  { s with procs := s.procs.map accountProc }

/-- Modelled from the spec: the sweep (§4.4 step 4): after the execution pass
completes, erase every process currently in state `DEAD` (the spec's
"simplest correct policy": erase unconditionally once dead, since a missing
wait-target resolves as satisfied). -/
def sweepPass (s : Scheduler) : Scheduler :=
  { s with procs := s.procs.filter (fun p => decide (¬ p.state = PState.dead)) }

/-- Modelled from the spec: one full update of one cadence (§4.4): transition
pass, then execution pass, then post-run `KILL_AFTER` accounting, then the
sweep. -/
def cadenceUpdate (env : List ProcSpec) (fuel : Nat) (c : Cadence) (s : Scheduler) : Scheduler :=
  sweepPass (accountingPass (executionPass env fuel c (transitionPass c s)))

/-- Modelled from the spec: the façade `update_frame()` (§6). -/
def update_frame (env : List ProcSpec) (fuel : Nat) (s : Scheduler) : Scheduler :=
  cadenceUpdate env fuel Cadence.per_frame s

/-- Modelled from the spec: the façade `update_tick()` (§6). -/
def update_tick (env : List ProcSpec) (fuel : Nat) (s : Scheduler) : Scheduler :=
  cadenceUpdate env fuel Cadence.per_tick s

/-- Modelled from the spec: the façade `pause_process(pid, n)` (§4.1/§6). -/
def pause_process (s : Scheduler) (pid : Nat) (n : Nat) : Scheduler :=
  modifyProc s pid (fun p => { p with state := PState.paused, pauseLeft := n })

/-- Modelled from the spec: the façade `kill_process(pid)` (§4.1/§6):
immediately set `DEAD`; removal is deferred to the sweep. -/
def kill_process (s : Scheduler) (pid : Nat) : Scheduler :=
  modifyProc s pid (fun p => { p with state := PState.dead })

/-- Iterated cadence updates (k successive time slices of cadence `c`). -/
def stepsN (env : List ProcSpec) (fuel : Nat) (c : Cadence) : Nat → Scheduler → Scheduler
  | 0, s => s
  | Nat.succ k, s => stepsN env fuel c k (cadenceUpdate env fuel c s)

/-- Well-formedness of a registry state: every stored PID and every logged
`initialize` PID is below the fresh-PID counter, and stored PIDs are
duplicate-free (§3 registry invariant). -/
def Wf (s : Scheduler) : Prop :=
  (∀ p ∈ s.procs, p.pid < s.nextPid) ∧
  (s.procs.map Process.pid).Nodup ∧
  (∀ x ∈ s.initLog, x < s.nextPid)

/-- The transition list exactly as claim C1 states it: state unchanged, or
`WAITING→ACTIVE` with the wait-target dead or absent, or `PAUSED→ACTIVE`
with the pause counter at 0, or `ACTIVE→PAUSED` on a `PERIODIC_SLEEP` skip
slice (which requires the flag to be set), or any→`DEAD`. -/
def claimedStepOK (s : Scheduler) (p q : Process) : Prop :=
  q.state = p.state ∨
  (p.state = PState.waiting ∧ q.state = PState.active ∧ targetGone s p.waitTarget = true) ∨
  (p.state = PState.paused ∧ q.state = PState.active ∧ p.pauseLeft = 0) ∨
  (p.state = PState.active ∧ q.state = PState.paused ∧ p.periodicN ≠ none) ∨
  q.state = PState.dead

/-- The state changes the §4.3 transition engine may make to one process. -/
def engineStepOK (s : Scheduler) (p q : Process) : Prop :=
  q.state = p.state ∨
  (p.state = PState.waiting ∧ q.state = PState.active ∧ targetGone s p.waitTarget = true) ∨
  (p.state = PState.paused ∧ q.state = PState.active ∧ p.pauseLeft = 0) ∨
  (p.state = PState.active ∧ q.state = PState.paused ∧ p.periodicN ≠ none)

/-- The state changes a §4.1 request `c` issued by `selfPid` may make to a
process `p`: nothing, or `sleep`/`pause_process` set `PAUSED`, `wait_for`
sets `WAITING`, `kill` sets `DEAD` — each only on its addressed target. -/
def requestStepOK (selfPid : Nat) (c : Cmd) (p q : Process) : Prop :=
  q.state = p.state ∨
  (p.pid = selfPid ∧ q.state = PState.paused ∧ ∃ n, c = Cmd.sleep n) ∨
  (p.pid = selfPid ∧ q.state = PState.waiting ∧ ∃ t, c = Cmd.wait_for t) ∨
  (q.state = PState.dead ∧ c = Cmd.kill p.pid) ∨
  (q.state = PState.paused ∧ ∃ n, c = Cmd.pause_process p.pid n)

/-- The state change the §4.4 step 3 post-run accounting may make: nothing,
or `DEAD` on `KILL_AFTER` exhaustion of a process that ran this pass. -/
def accountStepOK (p q : Process) : Prop :=
  q.state = p.state ∨
  (q.state = PState.dead ∧ p.ranFlag = true ∧ ∃ k, p.killAfterLeft = some k ∧ k - 1 = 0)

/-- Simulation facts preserved by every command-interpretation step: the
invocation log is untouched, the fresh-PID counter grows, the new
`initialize` log entries all name PIDs allocated during the step, and every
registry entry keeps its identity fields (PID, parent, variant, cadence). -/
def StepSim (s t : Scheduler) : Prop :=
  t.invLog = s.invLog ∧
  s.nextPid ≤ t.nextPid ∧
  (∃ d, t.initLog = s.initLog ++ d ∧ ∀ x ∈ d, s.nextPid ≤ x ∧ x < t.nextPid) ∧
  (∀ pid p, s.get pid = some p → ∃ q, t.get pid = some q ∧ q.pid = p.pid ∧
     q.parent = p.parent ∧ q.specIdx = p.specIdx ∧ q.cadence = p.cadence)

/-- Simulation facts for dispatch phases: the invocation log only grows, and
every appended invocation found the process `ACTIVE` (§4.4 step 2, §5). -/
def LogGuarded (s t : Scheduler) : Prop :=
  ∃ l, t.invLog = s.invLog ++ l ∧ ∀ e ∈ l, e.2 = PState.active

/-- A process variant that issues no requests at all. -/
def noopSpec (c : Cadence) : ProcSpec :=
  { cadence := c, onInit := fun _ _ => [], onUpdate := fun _ _ => [] }

/-- Scenario (claims C2): a `PER_FRAME` variant whose `initialize()` calls
`kill_after(n)` and whose `update()` does nothing. -/
def c2env (n : Nat) : List ProcSpec :=
  [{ cadence := Cadence.per_frame, onInit := fun _ _ => [Cmd.kill_after n],
     onUpdate := fun _ _ => [] }]

/-- Scenario: the registry right after creating the `kill_after(n)` process. -/
def c2start (n : Nat) : Scheduler := (create_process (c2env n) 4 none 0 Scheduler.empty).1

/-- Scenario: the live `kill_after` process record, with `r` runs remaining
and `rc` runs done. -/
def c2liveProc (r rc : Nat) : Process :=
  { pid := 0, parent := none, specIdx := 0, state := PState.active,
    cadence := Cadence.per_frame, waitTarget := none, pauseLeft := 0,
    periodicN := none, sliceCounter := 0, killAfterLeft := some r,
    runCount := rc, ranFlag := false }

/-- Scenario: the registry holding the live `kill_after` process with `r` runs
remaining, `rc` runs done, and invocation log `L`. -/
def c2live (r rc : Nat) (L : List (Nat × PState)) : Scheduler :=
  { procs := [c2liveProc r rc], nextPid := 1, invLog := L, initLog := [0] }

/-- Scenario: the `kill_after` process record right after its exhausting run
was accounted — `DEAD`, counter 0, `rc` runs done — before the sweep. -/
def c2deadProc (rc : Nat) : Process :=
  { pid := 0, parent := none, specIdx := 0, state := PState.dead,
    cadence := Cadence.per_frame, waitTarget := none, pauseLeft := 0,
    periodicN := none, sliceCounter := 0, killAfterLeft := some 0,
    runCount := rc, ranFlag := false }

/-- Scenario: the registry after the `kill_after` process was swept. -/
def c2gone (L : List (Nat × PState)) : Scheduler :=
  { procs := [], nextPid := 1, invLog := L, initLog := [0] }

/-- Scenario (claims C1 and C3): a variant whose `update()` calls `sleep(n)`
on its first run (from inside its own update callback) and then nothing. -/
def c3env (n : Nat) : List ProcSpec :=
  [{ cadence := Cadence.per_frame, onInit := fun _ _ => [],
     onUpdate := fun _ rc => if rc = 0 then [Cmd.sleep n] else [] }]

/-- Scenario: the registry right after creating the self-sleeping process. -/
def c3start (n : Nat) : Scheduler := (create_process (c3env n) 4 none 0 Scheduler.empty).1

/-- Scenario: the self-sleeping process record right after creation — `ACTIVE`
with no `PERIODIC_SLEEP` flag. -/
def c3startProc : Process :=
  { pid := 0, parent := none, specIdx := 0, state := PState.active,
    cadence := Cadence.per_frame, waitTarget := none, pauseLeft := 0,
    periodicN := none, sliceCounter := 0, killAfterLeft := none,
    runCount := 0, ranFlag := false }

/-- Scenario: the self-sleeping process record, paused with `r` slices left. -/
def c3pausedProc (r : Nat) : Process :=
  { pid := 0, parent := none, specIdx := 0, state := PState.paused,
    cadence := Cadence.per_frame, waitTarget := none, pauseLeft := r,
    periodicN := none, sliceCounter := 0, killAfterLeft := none,
    runCount := 1, ranFlag := false }

/-- Scenario: the registry with the self-sleeping process paused, `r` slices
of pause left. -/
def c3paused (r : Nat) : Scheduler :=
  { procs := [c3pausedProc r], nextPid := 1,
    invLog := [(0, PState.active)], initLog := [0] }

/-- Scenario: the self-sleeping process record after it woke up and ran
again. -/
def c3awakeProc : Process :=
  { pid := 0, parent := none, specIdx := 0, state := PState.active,
    cadence := Cadence.per_frame, waitTarget := none, pauseLeft := 0,
    periodicN := none, sliceCounter := 0, killAfterLeft := none,
    runCount := 2, ranFlag := false }

/-- Scenario: the registry after the self-sleeping process woke up and ran. -/
def c3awake : Scheduler :=
  { procs := [c3awakeProc], nextPid := 1,
    invLog := [(0, PState.active), (0, PState.active)], initLog := [0] }

/-- Scenario (claim C5): variant 0 does nothing, variant 1 kills PID 1 from
inside its `update()`. -/
def c5env : List ProcSpec :=
  [noopSpec Cadence.per_frame,
   { cadence := Cadence.per_frame, onInit := fun _ _ => [],
     onUpdate := fun _ _ => [Cmd.kill 1] }]

/-- Scenario: killer (PID 0), victim (PID 1) and bystander (PID 2), all
`ACTIVE` and `PER_FRAME`. -/
def c5start : Scheduler :=
  (create_process c5env 4 none 0
    (create_process c5env 4 none 0
      (create_process c5env 4 none 1 Scheduler.empty).1).1).1

/-- Scenario: the mid-update point right after the execution pass and the
post-run accounting of C5's dispatch pass, before the sweep. -/
def c5mid : Scheduler :=
  accountingPass (executionPass c5env 4 Cadence.per_frame
    (transitionPass Cadence.per_frame c5start))

/-- Scenario (claim C9): variant 0 is `chain_child` (`PER_TICK`, its
`initialize()` calls `wait_for(parent)`), variant 1 is `chain_parent`
(`PER_FRAME`, its `initialize()` creates the child and calls
`kill_after(5)`), as in the design notes. -/
def c9env : List ProcSpec :=
  [{ cadence := Cadence.per_tick,
     onInit := fun _ par => match par with | some pp => [Cmd.wait_for pp] | none => [],
     onUpdate := fun _ _ => [] },
   { cadence := Cadence.per_frame,
     onInit := fun _ _ => [Cmd.create 0, Cmd.kill_after 5],
     onUpdate := fun _ _ => [] }]

/-- Scenario: the registry right after creating `chain_parent` (PID 0), whose
`initialize()` created `chain_child` (PID 1). -/
def c9start : Scheduler := (create_process c9env 4 none 1 Scheduler.empty).1

/-- Scenario: `k` rounds of one frame update followed by one tick update. -/
def c9round : Nat → Scheduler
  | 0 => c9start
  | Nat.succ k => update_tick c9env 4 (update_frame c9env 4 (c9round k))

/-- Scenario: the mid-frame point of the parent's 5th frame — after the
execution pass and the `KILL_AFTER` accounting, before the sweep. -/
def c9mid5 : Scheduler :=
  accountingPass (executionPass c9env 4 Cadence.per_frame
    (transitionPass Cadence.per_frame (c9round 4)))

/-- Scenario: the `chain_child` record while waiting on its parent (PID 0). -/
def c9childW : Process :=
  { pid := 1, parent := some 0, specIdx := 0, state := PState.waiting,
    cadence := Cadence.per_tick, waitTarget := some 0, pauseLeft := 0,
    periodicN := none, sliceCounter := 0, killAfterLeft := none,
    runCount := 0, ranFlag := false }

/-- Scenario: the `chain_child` record once awoken and run once. -/
def c9childA : Process :=
  { c9childW with state := PState.active, runCount := 1 }

/-- Scenario: the `chain_parent` record after 4 of its 5 allotted runs. -/
def c9parent4 : Process :=
  { pid := 0, parent := none, specIdx := 1, state := PState.active,
    cadence := Cadence.per_frame, waitTarget := none, pauseLeft := 0,
    periodicN := none, sliceCounter := 0, killAfterLeft := some 1,
    runCount := 4, ranFlag := false }

/-- Scenario (claim C10 witness): the design notes' `delayed_event` variant —
its `initialize()` calls `sleep(10)`, its `update()` kills itself. -/
def delayedSpec : ProcSpec :=
  { cadence := Cadence.per_tick, onInit := fun _ _ => [Cmd.sleep 10],
    onUpdate := fun self _ => [Cmd.kill self] }

/-- Scenario (claim C10 witness): the environment with only `delayed_event`. -/
def delayedEnv : List ProcSpec := [delayedSpec]

/-- Scenario (claim C4 witness): a process record waiting on the PID 77,
which never existed. -/
def c4proc : Process :=
  { pid := 0, parent := none, specIdx := 0, state := PState.waiting,
    cadence := Cadence.per_tick, waitTarget := some 77, pauseLeft := 0,
    periodicN := none, sliceCounter := 0, killAfterLeft := none,
    runCount := 0, ranFlag := false }

/-- Scenario (claim C4 witness): a registry with just that waiting process. -/
def c4start : Scheduler :=
  { procs := [c4proc], nextPid := 1, invLog := [], initLog := [0] }

-- ===================================================================
-- Theorems
-- ===================================================================

/-- Lookup misses exactly when no stored process carries the PID. -/
theorem get_eq_none_iff (s : Scheduler) (pid : Nat) :
    s.get pid = none ↔ ∀ p ∈ s.procs, p.pid ≠ pid := by
  simp [Scheduler.get, List.find?_eq_none]

/-- A successful lookup returns a stored process with the queried PID. -/
theorem get_some_facts {s : Scheduler} {pid : Nat} {p : Process}
    (h : s.get pid = some p) : p ∈ s.procs ∧ p.pid = pid := by
  have hm := List.mem_of_find?_eq_some h
  have hp := List.find?_some h
  simp only [decide_eq_true_eq] at hp
  exact ⟨hm, hp⟩

/-- With duplicate-free PIDs, `find?` by the PID of a member finds it. -/
theorem find?_of_mem_nodup {l : List Process} {p : Process}
    (hmem : p ∈ l) (hnd : (l.map Process.pid).Nodup) :
    l.find? (fun q => decide (q.pid = p.pid)) = some p := by
  induction l with
  | nil => cases hmem
  | cons a t ih =>
      simp only [List.map_cons, List.nodup_cons, List.mem_map] at hnd
      rcases List.mem_cons.mp hmem with h | h
      · subst h
        simp [List.find?_cons]
      · have hne : a.pid ≠ p.pid := fun he => hnd.1 ⟨p, h, he.symm⟩
        simp only [List.find?_cons, decide_eq_false hne]
        exact ih h hnd.2

/-- With duplicate-free PIDs, lookup of a stored process's PID finds it. -/
theorem get_of_mem_nodup {s : Scheduler} {p : Process}
    (hmem : p ∈ s.procs) (hnd : (s.procs.map Process.pid).Nodup) :
    s.get p.pid = some p :=
  find?_of_mem_nodup hmem hnd

/-- `find?` by PID commutes with mapping a PID-preserving function. -/
theorem find?_pid_map (l : List Process) (g : Process → Process)
    (hg : ∀ p, (g p).pid = p.pid) (pid : Nat) :
    (l.map g).find? (fun p => decide (p.pid = pid)) =
      (l.find? (fun p => decide (p.pid = pid))).map g := by
  rw [List.find?_map]
  have hpred : ((fun p => decide (p.pid = pid)) ∘ g) = (fun p => decide (p.pid = pid)) := by
    funext p
    simp [Function.comp, hg]
  rw [hpred]

/-- Lookup after an in-place modification of PID `pid`, queried at `pid2`. -/
theorem modifyProc_get (s : Scheduler) (pid : Nat) (f : Process → Process)
    (hf : ∀ p, (f p).pid = p.pid) (pid2 : Nat) :
    (modifyProc s pid f).get pid2 =
      (s.get pid2).map (fun p => if p.pid = pid then f p else p) := by
  unfold modifyProc Scheduler.get
  exact find?_pid_map s.procs _ (fun p => by by_cases h : p.pid = pid <;> simp [h, hf]) pid2

/-- Lookup of the modified PID yields the modified process. -/
theorem modifyProc_get_self {s : Scheduler} {pid : Nat} {p : Process} (f : Process → Process)
    (hf : ∀ p, (f p).pid = p.pid) (h : s.get pid = some p) :
    (modifyProc s pid f).get pid = some (f p) := by
  rw [modifyProc_get s pid f hf pid, h]
  simp [(get_some_facts h).2]

/-- Lookup at a different PID is unaffected by the modification. -/
theorem modifyProc_get_ne {s : Scheduler} {pid pid2 : Nat} (f : Process → Process)
    (hf : ∀ p, (f p).pid = p.pid) (h : pid2 ≠ pid) :
    (modifyProc s pid f).get pid2 = s.get pid2 := by
  rw [modifyProc_get s pid f hf pid2]
  cases hg : s.get pid2 with
  | none => rfl
  | some p =>
      have := (get_some_facts hg).2
      simp [this, h]

/-- Modification through a missing PID is a no-op (§7 lookup-miss taxonomy). -/
theorem modifyProc_absent {s : Scheduler} {pid : Nat} (f : Process → Process)
    (h : s.get pid = none) : modifyProc s pid f = s := by
  unfold modifyProc
  have hall := (get_eq_none_iff s pid).mp h
  have : s.procs.map (fun p => if p.pid = pid then f p else p) = s.procs.map id := by
    apply List.map_congr_left
    intro a ha
    simp [hall a ha]
  rw [this, List.map_id]

theorem stepSim_refl (s : Scheduler) : StepSim s s :=
  ⟨rfl, Nat.le_refl _, ⟨[], by simp⟩,
   fun pid p h => ⟨p, h, rfl, rfl, rfl, rfl⟩⟩

theorem stepSim_trans {s t u : Scheduler} (h1 : StepSim s t) (h2 : StepSim t u) :
    StepSim s u := by
  obtain ⟨hl1, hn1, ⟨d1, hd1, hb1⟩, hg1⟩ := h1
  obtain ⟨hl2, hn2, ⟨d2, hd2, hb2⟩, hg2⟩ := h2
  refine ⟨hl2.trans hl1, hn1.trans hn2, ⟨d1 ++ d2, ?_, ?_⟩, ?_⟩
  · rw [hd2, hd1, List.append_assoc]
  · intro x hx
    rcases List.mem_append.mp hx with h | h
    · exact ⟨(hb1 x h).1, Nat.lt_of_lt_of_le (hb1 x h).2 hn2⟩
    · exact ⟨Nat.le_trans hn1 (hb2 x h).1, (hb2 x h).2⟩
  · intro pid p h
    obtain ⟨q, hq, e1, e2, e3, e4⟩ := hg1 pid p h
    obtain ⟨r, hr, f1, f2, f3, f4⟩ := hg2 pid q hq
    exact ⟨r, hr, f1.trans e1, f2.trans e2, f3.trans e3, f4.trans e4⟩

/-- Identity fields (PID, parent, variant, cadence) of a process. -/
def idFieldsEq (q p : Process) : Prop :=
  q.pid = p.pid ∧ q.parent = p.parent ∧ q.specIdx = p.specIdx ∧ q.cadence = p.cadence

theorem stepSim_modify (s : Scheduler) (pid : Nat) (f : Process → Process)
    (hf : ∀ p, idFieldsEq (f p) p) : StepSim s (modifyProc s pid f) := by
  refine ⟨rfl, Nat.le_refl _, ⟨[], by simp [modifyProc], fun x hx => absurd hx (by simp)⟩, ?_⟩
  intro pid2 p h
  rw [modifyProc_get s pid f (fun p => (hf p).1) pid2, h]
  by_cases hp : p.pid = pid
  · exact ⟨f p, by simp [hp], (hf p).1, (hf p).2.1, (hf p).2.2.1, (hf p).2.2.2⟩
  · exact ⟨p, by simp [hp], rfl, rfl, rfl, rfl⟩

theorem stepSim_applySimpleCmd (selfPid : Nat) (c : Cmd) (s : Scheduler) :
    StepSim s (applySimpleCmd selfPid c s) := by
  cases c <;>
    first
      | exact stepSim_refl s
      | exact stepSim_modify s _ _ (fun p => ⟨rfl, rfl, rfl, rfl⟩)

theorem stepSim_insertNew (s : Scheduler) (parent : Option Nat) (idx : Nat) (sp : ProcSpec) :
    StepSim s (insertNew s parent idx sp) := by
  refine ⟨rfl, Nat.le_succ _, ⟨[s.nextPid], rfl, ?_⟩, ?_⟩
  · intro x hx
    simp only [List.mem_singleton] at hx
    subst hx
    exact ⟨Nat.le_refl _, Nat.lt_succ_self _⟩
  · intro pid p h
    refine ⟨p, ?_, rfl, rfl, rfl, rfl⟩
    unfold Scheduler.get at h ⊢
    simp only [insertNew, List.find?_append, h, Option.or]

theorem stepSim_promote (s : Scheduler) (pid : Nat) : StepSim s (promote s pid) :=
  stepSim_modify s pid promoteProc
    (fun p => by unfold promoteProc; by_cases h : p.state = PState.inactive <;>
      simp [h, idFieldsEq])

theorem stepSim_runLevel (spawnF : Option Nat → Nat → Scheduler → Scheduler)
    (hsp : ∀ par idx t, StepSim t (spawnF par idx t)) (selfPid : Nat) :
    ∀ (cs : List Cmd) (s : Scheduler), StepSim s (runLevel spawnF selfPid cs s)
  | [], s => stepSim_refl s
  | Cmd.create idx :: rest, s =>
      stepSim_trans (hsp (some selfPid) idx s)
        (stepSim_runLevel spawnF hsp selfPid rest _)
  | Cmd.sleep n :: rest, s =>
      stepSim_trans (stepSim_applySimpleCmd selfPid (Cmd.sleep n) s)
        (stepSim_runLevel spawnF hsp selfPid rest _)
  | Cmd.wait_for t :: rest, s =>
      stepSim_trans (stepSim_applySimpleCmd selfPid (Cmd.wait_for t) s)
        (stepSim_runLevel spawnF hsp selfPid rest _)
  | Cmd.kill pid :: rest, s =>
      stepSim_trans (stepSim_applySimpleCmd selfPid (Cmd.kill pid) s)
        (stepSim_runLevel spawnF hsp selfPid rest _)
  | Cmd.kill_after n :: rest, s =>
      stepSim_trans (stepSim_applySimpleCmd selfPid (Cmd.kill_after n) s)
        (stepSim_runLevel spawnF hsp selfPid rest _)
  | Cmd.periodic_sleep n :: rest, s =>
      stepSim_trans (stepSim_applySimpleCmd selfPid (Cmd.periodic_sleep n) s)
        (stepSim_runLevel spawnF hsp selfPid rest _)
  | Cmd.pause_process pid n :: rest, s =>
      stepSim_trans (stepSim_applySimpleCmd selfPid (Cmd.pause_process pid n) s)
        (stepSim_runLevel spawnF hsp selfPid rest _)

theorem stepSim_spawnFuel (env : List ProcSpec) :
    ∀ (fuel : Nat) (parent : Option Nat) (idx : Nat) (s : Scheduler),
      StepSim s (spawnFuel env fuel parent idx s)
  | 0, _, _, s => stepSim_refl s
  | Nat.succ f, parent, idx, s => by
      unfold spawnFuel
      cases env.get? idx with
      | none => exact stepSim_refl s
      | some sp =>
          exact stepSim_trans
            (stepSim_trans (stepSim_insertNew s parent idx sp)
              (stepSim_runLevel (spawnFuel env f) (stepSim_spawnFuel env f) _ _ _))
            (stepSim_promote _ _)

theorem runLevel_invLog (spawnF : Option Nat → Nat → Scheduler → Scheduler)
    (hsp : ∀ par idx t, StepSim t (spawnF par idx t)) (selfPid : Nat)
    (cs : List Cmd) (s : Scheduler) :
    (runLevel spawnF selfPid cs s).invLog = s.invLog :=
  (stepSim_runLevel spawnF hsp selfPid cs s).1

theorem logGuarded_refl (s : Scheduler) : LogGuarded s s :=
  ⟨[], by simp, fun e he => absurd he (by simp)⟩

theorem logGuarded_trans {s t u : Scheduler} (h1 : LogGuarded s t) (h2 : LogGuarded t u) :
    LogGuarded s u := by
  obtain ⟨l1, hl1, ha1⟩ := h1
  obtain ⟨l2, hl2, ha2⟩ := h2
  refine ⟨l1 ++ l2, by rw [hl2, hl1, List.append_assoc], ?_⟩
  intro e he
  rcases List.mem_append.mp he with h | h
  · exact ha1 e h
  · exact ha2 e h

theorem execVisit_logGuarded (env : List ProcSpec) (fuel : Nat) (s : Scheduler) (pid : Nat) :
    LogGuarded s (execVisit env fuel s pid) := by
  unfold execVisit
  cases hg : s.get pid with
  | none => exact logGuarded_refl s
  | some p =>
      by_cases hs : p.state = PState.active
      · simp only [hs, if_true]
        cases env.get? p.specIdx with
        | none => exact logGuarded_refl s
        | some sp =>
            refine ⟨[(pid, PState.active)], ?_, ?_⟩
            · rw [runLevel_invLog _ (stepSim_spawnFuel env fuel) _ _ _]
              simp [modifyProc]
            · intro e he
              simp only [List.mem_singleton] at he
              subst he
              rfl
      · simp only [hs, if_false]
        exact logGuarded_refl s

/-- Folding a step that maintains a reflexive transitive relation maintains it. -/
theorem foldl_rel {α : Type} (f : Scheduler → α → Scheduler)
    (R : Scheduler → Scheduler → Prop)
    (hrefl : ∀ s, R s s) (htrans : ∀ {s t u}, R s t → R t u → R s u)
    (hstep : ∀ t a, R t (f t a)) :
    ∀ (l : List α) (s : Scheduler), R s (l.foldl f s)
  | [], s => hrefl s
  | a :: l, s => htrans (hstep s a) (foldl_rel f R hrefl htrans hstep l (f s a))

theorem executionPass_logGuarded (env : List ProcSpec) (fuel : Nat) (c : Cadence)
    (s : Scheduler) : LogGuarded s (executionPass env fuel c s) :=
  foldl_rel _ LogGuarded logGuarded_refl logGuarded_trans
    (execVisit_logGuarded env fuel) _ s

theorem cadenceUpdate_logGuarded (env : List ProcSpec) (fuel : Nat) (c : Cadence)
    (s : Scheduler) : LogGuarded s (cadenceUpdate env fuel c s) := by
  have h := executionPass_logGuarded env fuel c (transitionPass c s)
  obtain ⟨l, hl, ha⟩ := h
  exact ⟨l, hl, ha⟩

theorem transitionStep_pid (s : Scheduler) (p : Process) :
    (transitionStep s p).pid = p.pid := by
  unfold transitionStep
  repeat' split
  all_goals rfl

theorem accountProc_pid (p : Process) : (accountProc p).pid = p.pid := by
  unfold accountProc
  repeat' split
  all_goals rfl

theorem transitionPass_get (c : Cadence) (s : Scheduler) (pid : Nat) :
    (transitionPass c s).get pid =
      (s.get pid).map (fun p => if p.cadence = c then transitionStep s p else p) := by
  unfold transitionPass Scheduler.get
  exact find?_pid_map s.procs _
    (fun p => by by_cases h : p.cadence = c <;> simp [h, transitionStep_pid]) pid

theorem accountingPass_get (s : Scheduler) (pid : Nat) :
    (accountingPass s).get pid = (s.get pid).map accountProc := by
  unfold accountingPass Scheduler.get
  exact find?_pid_map s.procs _ accountProc_pid pid

/-- C8: the registry lookup `get(pid)` is total — it returns the empty
optional exactly when no live process carries the PID (unknown or already
destroyed), and a lookup-miss is never surfaced as a failure anywhere in the
scheduler: killing or pausing a missing PID is a no-op, and a missing
wait-target counts as a satisfied wait. -/
theorem C8_get_total_and_miss_benign :
    (∀ (s : Scheduler) (pid : Nat), s.get pid = none ↔ ∀ p ∈ s.procs, p.pid ≠ pid) ∧
    (∀ (s : Scheduler) (pid : Nat), s.get pid = none → kill_process s pid = s) ∧
    (∀ (s : Scheduler) (pid n : Nat), s.get pid = none → pause_process s pid n = s) ∧
    (∀ (selfPid : Nat) (s : Scheduler) (pid : Nat), s.get pid = none →
        applySimpleCmd selfPid (Cmd.kill pid) s = s) ∧
    (∀ (s : Scheduler) (t : Nat), s.get t = none → targetGone s (some t) = true) := by
  refine ⟨get_eq_none_iff, ?_, ?_, ?_, ?_⟩
  · intro s pid h
    exact modifyProc_absent _ h
  · intro s pid n h
    exact modifyProc_absent _ h
  · intro selfPid s pid h
    exact modifyProc_absent _ h
  · intro s t h
    simp [targetGone, h]

/-- Witness for C8 at concrete inputs: PID 5 in the empty registry, PID 9 and
wait-target 77 in the registry holding only PID 0. -/
theorem C8_get_total_and_miss_benign_witness :
    (Scheduler.empty.get 5 = none) ∧ kill_process c4start 9 = c4start ∧
      pause_process c4start 9 3 = c4start ∧ targetGone c4start (some 77) = true :=
  ⟨(C8_get_total_and_miss_benign.1 Scheduler.empty 5).mpr (by decide),
   C8_get_total_and_miss_benign.2.1 c4start 9 (by decide),
   C8_get_total_and_miss_benign.2.2.1 c4start 9 3 (by decide),
   C8_get_total_and_miss_benign.2.2.2.2 c4start 77 (by decide)⟩

/-- C4: a process whose `wait_for` target does not resolve to any live
process (never existed or already swept) has its state switched to `ACTIVE`
by the very next state-transition pass of its own cadence — the missing
target is treated as a satisfied precondition, not as an error or a
permanent wait. -/
theorem C4_wait_for_missing_resolves (s : Scheduler) (p : Process) (t : Nat)
    (hwf : Wf s) (hmem : p ∈ s.procs) (hst : p.state = PState.waiting)
    (htg : p.waitTarget = some t) (hmiss : s.get t = none) :
    targetGone s (some t) = true ∧
    (transitionPass p.cadence s).get p.pid = some { p with state := PState.active } := by
  have hgone : targetGone s (some t) = true := by
    simp [targetGone, hmiss]
  refine ⟨hgone, ?_⟩
  rw [transitionPass_get, get_of_mem_nodup hmem hwf.2.1]
  have hts : transitionStep s p = { p with state := PState.active } := by
    unfold transitionStep
    rw [hst, htg, hgone]
    simp
  simp [hts]

/-- Witness for C4 at the concrete registry holding one process (PID 0)
waiting on the never-created PID 77. -/
theorem C4_wait_for_missing_resolves_witness :
    targetGone c4start (some 77) = true ∧
    (transitionPass c4proc.cadence c4start).get c4proc.pid =
      some { c4proc with state := PState.active } :=
  C4_wait_for_missing_resolves c4start c4proc 77
    (by unfold Wf; decide) (by decide) rfl rfl (by decide)

/-- An in-place modification either left the looked-up process alone (PID not
addressed) or applied the modifier to it (PID addressed). -/
theorem modify_get_cases {s : Scheduler} {pid tgt : Nat} {p q : Process}
    {f : Process → Process}
    (hp : s.get pid = some p) (hq : (modifyProc s tgt f).get pid = some q)
    (hfpid : ∀ r, (f r).pid = r.pid) :
    (q = p ∧ p.pid ≠ tgt) ∨ (q = f p ∧ p.pid = tgt) := by
  rw [modifyProc_get s tgt f hfpid pid, hp] at hq
  simp only [Option.map_some', Option.some_inj] at hq
  by_cases hc : p.pid = tgt
  · right
    rw [if_pos hc] at hq
    exact ⟨hq.symm, hc⟩
  · left
    rw [if_neg hc] at hq
    exact ⟨hq.symm, hc⟩

/-- C1 (as stated, refuted): reachable two-state counterexample.  The
registry `c3start 2` is reached from the empty registry by one
`create_process`; one frame update later the process, which has no
`PERIODIC_SLEEP` flag, went `ACTIVE → PAUSED` because its own update
callback called `sleep(2)` — a state change that is not among the five
transitions the claim lists. -/
theorem C1_counterexample :
    (c3start 2).get 0 = some c3startProc ∧
    (stepsN (c3env 2) 4 Cadence.per_frame 1 (c3start 2)).get 0 = some (c3pausedProc 2) ∧
    c3startProc.state = PState.active ∧
    (c3pausedProc 2).state = PState.paused ∧
    c3startProc.periodicN = none ∧
    ¬ claimedStepOK (c3start 2) c3startProc (c3pausedProc 2) := by
  refine ⟨by decide, by decide, rfl, rfl, rfl, ?_⟩
  unfold claimedStepOK
  decide

/-- C1 (amended): every state change the scheduler can make is either an
engine transition of the §4.3 table (`WAITING→ACTIVE` on a gone target,
`PAUSED→ACTIVE` at counter 0, `ACTIVE→PAUSED` on a periodic skip slice), or
a §4.1 request effect (`sleep`/`pause_process` set `PAUSED`, `wait_for` sets
`WAITING`, `kill` sets `DEAD`), or `DEAD` by `KILL_AFTER` exhaustion at the
post-run accounting, or the creation-time promotion `inactive→ACTIVE`; the
sweep only removes processes and changes no state; and the dispatcher never
invokes an update callback on a process whose state is not `ACTIVE`. -/
theorem C1_transitions_and_dispatch_guard :
    (∀ (s : Scheduler) (p : Process), engineStepOK s p (transitionStep s p)) ∧
    (∀ (selfPid : Nat) (c : Cmd) (s : Scheduler) (pid : Nat) (p q : Process),
        s.get pid = some p → (applySimpleCmd selfPid c s).get pid = some q →
        requestStepOK selfPid c p q) ∧
    (∀ p : Process, accountStepOK p (accountProc p)) ∧
    (∀ p : Process, (promoteProc p).state = p.state ∨
        (p.state = PState.inactive ∧ (promoteProc p).state = PState.active)) ∧
    (∀ (s : Scheduler) (p : Process), p ∈ (sweepPass s).procs → p ∈ s.procs) ∧
    (∀ (env : List ProcSpec) (fuel : Nat) (c : Cadence) (s : Scheduler)
        (e : Nat × PState), e ∈ (cadenceUpdate env fuel c s).invLog →
        e ∈ s.invLog ∨ e.2 = PState.active) := by
  refine ⟨?_, ?_, ?_, ?_, ?_, ?_⟩
  · intro s p
    unfold engineStepOK transitionStep
    split
    next heq =>
      by_cases hg : targetGone s p.waitTarget = true
      · rw [if_pos hg]
        exact Or.inr (Or.inl ⟨heq, rfl, hg⟩)
      · rw [if_neg hg]
        exact Or.inl rfl
    next heq =>
      by_cases h0 : p.pauseLeft = 0
      · rw [if_pos h0]
        exact Or.inr (Or.inr (Or.inl ⟨heq, rfl, h0⟩))
      · rw [if_neg h0]
        exact Or.inl rfl
    next heq =>
      split
      next n hpn =>
        split
        next h1 => exact Or.inl rfl
        next h1 =>
          split
          next h2 => exact Or.inl rfl
          next h2 =>
            exact Or.inr (Or.inr (Or.inr
              ⟨heq, rfl, by rw [hpn]; exact Option.some_ne_none n⟩))
      next hpn => exact Or.inl rfl
    next x hx =>
      exact Or.inl rfl
  · intro selfPid c s pid p q hp hq
    unfold requestStepOK
    cases c with
    | sleep n =>
        simp only [applySimpleCmd] at hq
        rcases modify_get_cases hp hq (fun r => rfl) with ⟨he, _⟩ | ⟨he, hc⟩
        · exact Or.inl (by rw [he])
        · exact Or.inr (Or.inl ⟨hc, by rw [he], n, rfl⟩)
    | wait_for t =>
        simp only [applySimpleCmd] at hq
        rcases modify_get_cases hp hq (fun r => rfl) with ⟨he, _⟩ | ⟨he, hc⟩
        · exact Or.inl (by rw [he])
        · exact Or.inr (Or.inr (Or.inl ⟨hc, by rw [he], t, rfl⟩))
    | kill pid0 =>
        simp only [applySimpleCmd] at hq
        rcases modify_get_cases hp hq (fun r => rfl) with ⟨he, _⟩ | ⟨he, hc⟩
        · exact Or.inl (by rw [he])
        · exact Or.inr (Or.inr (Or.inr (Or.inl ⟨by rw [he], by rw [hc]⟩)))
    | kill_after n =>
        simp only [applySimpleCmd] at hq
        rcases modify_get_cases hp hq (fun r => rfl) with ⟨he, _⟩ | ⟨he, _⟩
        · exact Or.inl (by rw [he])
        · exact Or.inl (by rw [he])
    | periodic_sleep n =>
        simp only [applySimpleCmd] at hq
        rcases modify_get_cases hp hq (fun r => rfl) with ⟨he, _⟩ | ⟨he, _⟩
        · exact Or.inl (by rw [he])
        · exact Or.inl (by rw [he])
    | pause_process pid0 n =>
        simp only [applySimpleCmd] at hq
        rcases modify_get_cases hp hq (fun r => rfl) with ⟨he, _⟩ | ⟨he, hc⟩
        · exact Or.inl (by rw [he])
        · exact Or.inr (Or.inr (Or.inr (Or.inr ⟨by rw [he], n, by rw [hc]⟩)))
    | create idx =>
        have hqp : q = p := by
          simp only [applySimpleCmd] at hq
          rw [hp] at hq
          exact (Option.some_inj.mp hq).symm
        exact Or.inl (by rw [hqp])
  · intro p
    unfold accountStepOK accountProc
    by_cases hr : p.ranFlag = true
    · rw [if_pos hr]
      cases hk : p.killAfterLeft with
      | none => exact Or.inl rfl
      | some k =>
          by_cases h0 : k - 1 = 0
          · refine Or.inr ⟨?_, hr, k, rfl, h0⟩
            simp [h0]
          · refine Or.inl ?_
            simp [h0]
    · rw [if_neg hr]
      exact Or.inl rfl
  · intro p
    unfold promoteProc
    by_cases h : p.state = PState.inactive
    · rw [if_pos h]
      exact Or.inr ⟨h, rfl⟩
    · rw [if_neg h]
      exact Or.inl rfl
  · intro s p h
    exact List.mem_of_mem_filter h
  · intro env fuel c s e he
    obtain ⟨l, hl, ha⟩ := cadenceUpdate_logGuarded env fuel c s
    rw [hl] at he
    rcases List.mem_append.mp he with h | h
    · exact Or.inl h
    · exact Or.inr (ha e h)

/-- Witness for C1 (amended) at concrete inputs: the engine transition of the
waiting process of `c4start`, the `sleep(2)` request of the C1
counterexample scenario, and the accounting of an exhausted `KILL_AFTER`
process. -/
theorem C1_transitions_and_dispatch_guard_witness :
    engineStepOK c4start c4proc (transitionStep c4start c4proc) ∧
    requestStepOK 0 (Cmd.sleep 2) c3startProc
      { c3startProc with state := PState.paused, pauseLeft := 2 } ∧
    accountStepOK (c2liveProc 1 0) (accountProc (c2liveProc 1 0)) :=
  ⟨C1_transitions_and_dispatch_guard.1 c4start c4proc,
   C1_transitions_and_dispatch_guard.2.1 0 (Cmd.sleep 2) (c3start 2) 0 c3startProc
     { c3startProc with state := PState.paused, pauseLeft := 2 } (by decide) (by decide),
   C1_transitions_and_dispatch_guard.2.2.1 (c2liveProc 1 0)⟩

theorem stepsN_succ_out (env : List ProcSpec) (fuel : Nat) (c : Cadence) :
    ∀ (k : Nat) (s : Scheduler),
      stepsN env fuel c (k + 1) s = cadenceUpdate env fuel c (stepsN env fuel c k s)
  | 0, _ => rfl
  | k + 1, s => stepsN_succ_out env fuel c k (cadenceUpdate env fuel c s)

theorem stepsN_add (env : List ProcSpec) (fuel : Nat) (c : Cadence) :
    ∀ (a b : Nat) (s : Scheduler),
      stepsN env fuel c (a + b) s = stepsN env fuel c a (stepsN env fuel c b s)
  | _, 0, _ => rfl
  | a, b + 1, s => stepsN_add env fuel c a b (cadenceUpdate env fuel c s)

theorem c2_start_eq (n : Nat) : c2start n = c2live n 0 [] := rfl

theorem c2_step (n r rc : Nat) (L : List (Nat × PState)) :
    cadenceUpdate (c2env n) 4 Cadence.per_frame (c2live (r + 2) rc L) =
      c2live (r + 1) (rc + 1) (L ++ [(0, PState.active)]) := rfl

theorem c2_mid (n rc : Nat) (L : List (Nat × PState)) :
    accountingPass (executionPass (c2env n) 4 Cadence.per_frame
        (transitionPass Cadence.per_frame (c2live 1 rc L))) =
      { procs := [c2deadProc (rc + 1)], nextPid := 1,
        invLog := L ++ [(0, PState.active)], initLog := [0] } := rfl

theorem c2_last (n rc : Nat) (L : List (Nat × PState)) :
    cadenceUpdate (c2env n) 4 Cadence.per_frame (c2live 1 rc L) =
      c2gone (L ++ [(0, PState.active)]) := rfl

theorem c2_gone_steps (n : Nat) :
    ∀ (j : Nat) (L : List (Nat × PState)),
      stepsN (c2env n) 4 Cadence.per_frame j (c2gone L) = c2gone L
  | 0, _ => rfl
  | j + 1, L => c2_gone_steps n j L

theorem c2_steps (n : Nat) :
    ∀ (k r rc : Nat) (L : List (Nat × PState)),
      stepsN (c2env n) 4 Cadence.per_frame k (c2live (k + r + 1) rc L) =
        c2live (r + 1) (rc + k) (L ++ List.replicate k (0, PState.active))
  | 0, r, rc, L => by simp [stepsN]
  | k + 1, r, rc, L => by
      have harg : k + 1 + r + 1 = k + r + 2 := by omega
      rw [harg]
      show stepsN (c2env n) 4 Cadence.per_frame k
          (cadenceUpdate (c2env n) 4 Cadence.per_frame (c2live (k + r + 2) rc L)) = _
      rw [c2_step n (k + r) rc L]
      rw [c2_steps n k r (rc + 1) (L ++ [(0, PState.active)])]
      have hc : rc + 1 + k = rc + (k + 1) := by omega
      rw [hc, List.append_assoc, List.singleton_append, ← List.replicate_succ]

/-- C2: a process with `kill_after(n)`, `n > 0`, and no other kill source
runs exactly `n` more times: after `k < n` updates it is `ACTIVE` with
remaining count `n - k` and has been invoked `k` times; at the post-run
accounting point of its `n`-th run it is `DEAD` with counter 0; from the
`n`-th update on it is gone from the registry and its invocation count stays
`n` forever.  The accounting decrements only on slices in which the process
actually ran. -/
theorem C2_kill_after_runs_exactly_n (n : Nat) (hn : 0 < n) :
    (∀ k, k < n →
       (stepsN (c2env n) 4 Cadence.per_frame k (c2start n)).get 0 =
           some (c2liveProc (n - k) k) ∧
       (stepsN (c2env n) 4 Cadence.per_frame k (c2start n)).invLog.length = k) ∧
    (accountingPass (executionPass (c2env n) 4 Cadence.per_frame
        (transitionPass Cadence.per_frame
          (stepsN (c2env n) 4 Cadence.per_frame (n - 1) (c2start n))))).get 0 =
      some (c2deadProc n) ∧
    (∀ j, (stepsN (c2env n) 4 Cadence.per_frame (n + j) (c2start n)).get 0 = none ∧
       (stepsN (c2env n) 4 Cadence.per_frame (n + j) (c2start n)).invLog.length = n) ∧
    (∀ p : Process, p.ranFlag = false → accountProc p = p) ∧
    (∀ (p : Process) (k : Nat), p.ranFlag = true → p.killAfterLeft = some k →
       (accountProc p).killAfterLeft = some (k - 1)) := by
  have hform : ∀ k, k < n →
      stepsN (c2env n) 4 Cadence.per_frame k (c2start n) =
        c2live (n - k) k (List.replicate k (0, PState.active)) := by
    intro k hk
    rw [c2_start_eq n]
    have e1 : k + (n - k - 1) + 1 = n := by omega
    have e2 : n - k - 1 + 1 = n - k := by omega
    calc stepsN (c2env n) 4 Cadence.per_frame k (c2live n 0 []) =
        stepsN (c2env n) 4 Cadence.per_frame k (c2live (k + (n - k - 1) + 1) 0 []) := by
          rw [e1]
      _ = c2live (n - k - 1 + 1) (0 + k) ([] ++ List.replicate k (0, PState.active)) :=
          c2_steps n k (n - k - 1) 0 []
      _ = c2live (n - k) k (List.replicate k (0, PState.active)) := by
          rw [e2, Nat.zero_add, List.nil_append]
  have hlast : stepsN (c2env n) 4 Cadence.per_frame (n - 1) (c2start n) =
      c2live 1 (n - 1) (List.replicate (n - 1) (0, PState.active)) := by
    have := hform (n - 1) (by omega)
    rwa [show n - (n - 1) = 1 by omega] at this
  have hdead : stepsN (c2env n) 4 Cadence.per_frame n (c2start n) =
      c2gone (List.replicate (n - 1) (0, PState.active) ++ [(0, PState.active)]) := by
    have hsn : n = n - 1 + 1 := by omega
    calc stepsN (c2env n) 4 Cadence.per_frame n (c2start n) =
        stepsN (c2env n) 4 Cadence.per_frame (n - 1 + 1) (c2start n) := by rw [← hsn]
      _ = cadenceUpdate (c2env n) 4 Cadence.per_frame
            (stepsN (c2env n) 4 Cadence.per_frame (n - 1) (c2start n)) :=
          stepsN_succ_out (c2env n) 4 Cadence.per_frame (n - 1) (c2start n)
      _ = cadenceUpdate (c2env n) 4 Cadence.per_frame
            (c2live 1 (n - 1) (List.replicate (n - 1) (0, PState.active))) := by rw [hlast]
      _ = c2gone (List.replicate (n - 1) (0, PState.active) ++ [(0, PState.active)]) :=
          c2_last n (n - 1) _
  refine ⟨?_, ?_, ?_, ?_, ?_⟩
  · intro k hk
    rw [hform k hk]
    exact ⟨rfl, by simp [c2live]⟩
  · rw [hlast, c2_mid n (n - 1) _]
    rw [show n - 1 + 1 = n by omega]
    rfl
  · intro j
    have : stepsN (c2env n) 4 Cadence.per_frame (n + j) (c2start n) =
        c2gone (List.replicate (n - 1) (0, PState.active) ++ [(0, PState.active)]) := by
      rw [show n + j = j + n by omega, stepsN_add, hdead, c2_gone_steps]
    rw [this]
    refine ⟨rfl, ?_⟩
    simp [c2gone]
    omega
  · intro p h
    unfold accountProc
    rw [if_neg]
    rw [h]
    simp
  · intro p k hr hk
    unfold accountProc
    rw [if_pos hr, hk]

/-- Witness for C2 at `n = 3`: after 1 update the process is `ACTIVE` with 2
runs left and 1 invocation; after `3 + 2` updates it is gone. -/
theorem C2_kill_after_runs_exactly_n_witness :
    ((stepsN (c2env 3) 4 Cadence.per_frame 1 (c2start 3)).get 0 =
        some (c2liveProc 2 1) ∧
      (stepsN (c2env 3) 4 Cadence.per_frame 1 (c2start 3)).invLog.length = 1) ∧
    (stepsN (c2env 3) 4 Cadence.per_frame (3 + 2) (c2start 3)).get 0 = none :=
  ⟨(C2_kill_after_runs_exactly_n 3 (by decide)).1 1 (by decide),
   ((C2_kill_after_runs_exactly_n 3 (by decide)).2.2.1 2).1⟩

theorem c3_start_step (n : Nat) :
    cadenceUpdate (c3env n) 4 Cadence.per_frame (c3start n) = c3paused n := rfl

theorem c3_dec (n r : Nat) :
    cadenceUpdate (c3env n) 4 Cadence.per_frame (c3paused (r + 1)) = c3paused r := rfl

theorem c3_wake (n : Nat) :
    cadenceUpdate (c3env n) 4 Cadence.per_frame (c3paused 0) = c3awake := rfl

theorem c3_paused_steps (n : Nat) :
    ∀ (j r : Nat), j ≤ r →
      stepsN (c3env n) 4 Cadence.per_frame j (c3paused r) = c3paused (r - j)
  | 0, r, _ => by simp [stepsN]
  | j + 1, r, h => by
      have hr : r = r - 1 + 1 := by omega
      rw [hr]
      show stepsN (c3env n) 4 Cadence.per_frame j
          (cadenceUpdate (c3env n) 4 Cadence.per_frame (c3paused (r - 1 + 1))) = _
      rw [c3_dec n (r - 1), c3_paused_steps n j (r - 1) (by omega)]
      rw [show r - 1 - j = r - 1 + 1 - (j + 1) by omega]

/-- C3: a process that calls `sleep(n)` (`n > 0`) from inside its own update
callback becomes `PAUSED` with duration `n`; for the next `n` time slices of
its own cadence it is not invoked (its invocation count stays 1, its pause
counter counts down); on the slice after those `n` it is `ACTIVE` again with
no external intervention and runs (invocation count 2).  The façade
`pause_process(pid, n)` has the same immediate effect on its target. -/
theorem C3_sleep_skips_exactly_n (n : Nat) (hn : 0 < n) :
    ((stepsN (c3env n) 4 Cadence.per_frame 1 (c3start n)).get 0 =
        some (c3pausedProc n) ∧
      (stepsN (c3env n) 4 Cadence.per_frame 1 (c3start n)).invLog.length = 1) ∧
    (∀ j, 1 ≤ j → j ≤ n →
       (stepsN (c3env n) 4 Cadence.per_frame (1 + j) (c3start n)).get 0 =
           some (c3pausedProc (n - j)) ∧
       (stepsN (c3env n) 4 Cadence.per_frame (1 + j) (c3start n)).invLog.length = 1) ∧
    ((stepsN (c3env n) 4 Cadence.per_frame (n + 2) (c3start n)).get 0 =
        some c3awakeProc ∧
      (stepsN (c3env n) 4 Cadence.per_frame (n + 2) (c3start n)).invLog.length = 2) ∧
    (∀ (s : Scheduler) (pid m : Nat),
       (pause_process s pid m).get pid =
         (s.get pid).map (fun p => { p with state := PState.paused, pauseLeft := m })) := by
  have h1 : stepsN (c3env n) 4 Cadence.per_frame 1 (c3start n) = c3paused n :=
    c3_start_step n
  have hmid : ∀ j, j ≤ n →
      stepsN (c3env n) 4 Cadence.per_frame (1 + j) (c3start n) = c3paused (n - j) := by
    intro j hj
    rw [show 1 + j = j + 1 by omega, stepsN_add (c3env n) 4 Cadence.per_frame j 1, h1]
    exact c3_paused_steps n j n hj
  refine ⟨?_, ?_, ?_, ?_⟩
  · rw [h1]
    exact ⟨rfl, rfl⟩
  · intro j _ hj
    rw [hmid j hj]
    exact ⟨rfl, rfl⟩
  · have hz : stepsN (c3env n) 4 Cadence.per_frame (1 + n) (c3start n) = c3paused 0 := by
      rw [hmid n (Nat.le_refl n), Nat.sub_self]
    have : stepsN (c3env n) 4 Cadence.per_frame (n + 2) (c3start n) = c3awake := by
      rw [show n + 2 = 1 + (1 + n) by omega,
          stepsN_add (c3env n) 4 Cadence.per_frame 1 (1 + n), hz]
      exact c3_wake n
    rw [this]
    exact ⟨rfl, rfl⟩
  · intro s pid m
    unfold pause_process
    cases h : s.get pid with
    | none =>
        rw [modifyProc_get s pid
          (fun p => { p with state := PState.paused, pauseLeft := m }) (fun r => rfl) pid, h]
        rfl
    | some p =>
        rw [modifyProc_get_self
          (fun p => { p with state := PState.paused, pauseLeft := m }) (fun r => rfl) h]
        rfl

/-- Witness for C3 at `n = 2`: paused with 2 left after the sleeping run,
still paused (1 invocation) two slices later, awake and re-run (2
invocations) on the slice after. -/
theorem C3_sleep_skips_exactly_n_witness :
    ((stepsN (c3env 2) 4 Cadence.per_frame 1 (c3start 2)).get 0 =
        some (c3pausedProc 2) ∧
      (stepsN (c3env 2) 4 Cadence.per_frame 1 (c3start 2)).invLog.length = 1) ∧
    ((stepsN (c3env 2) 4 Cadence.per_frame (1 + 2) (c3start 2)).get 0 =
        some (c3pausedProc 0) ∧
      (stepsN (c3env 2) 4 Cadence.per_frame (1 + 2) (c3start 2)).invLog.length = 1) ∧
    ((stepsN (c3env 2) 4 Cadence.per_frame (2 + 2) (c3start 2)).get 0 =
        some c3awakeProc ∧
      (stepsN (c3env 2) 4 Cadence.per_frame (2 + 2) (c3start 2)).invLog.length = 2) :=
  ⟨(C3_sleep_skips_exactly_n 2 (by decide)).1,
   by
     have h := (C3_sleep_skips_exactly_n 2 (by decide)).2.1 2 (by decide) (by decide)
     simpa using h,
   (C3_sleep_skips_exactly_n 2 (by decide)).2.2.1⟩

/-- C9: the chained scenario of the design notes.  `chain_parent`
(`PER_FRAME`, `kill_after(5)`) is created; its `initialize()` creates
`chain_child` (`PER_TICK`) which waits on the parent.  Under alternating
frame/tick updates the child stays `WAITING` through the parent's first four
rounds; the parent is `DEAD` at the 5th frame's post-run accounting point
and swept at that frame's end, with exactly 5 recorded parent invocations,
while the child is still `WAITING` after that entire frame pass; on the
child's next tick transition pass the child becomes `ACTIVE` and runs in
that same tick. -/
theorem C9_chain_parent_child :
    (c9start.get 1 = some c9childW) ∧
    ((c9round 1).get 1 = some c9childW) ∧
    ((c9round 2).get 1 = some c9childW) ∧
    ((c9round 3).get 1 = some c9childW) ∧
    ((c9round 4).get 1 = some c9childW) ∧
    ((c9round 4).get 0 = some c9parent4) ∧
    ((c9mid5.get 0).map Process.state = some PState.dead) ∧
    (c9mid5.get 1 = some c9childW) ∧
    ((update_frame c9env 4 (c9round 4)).get 0 = none) ∧
    ((update_frame c9env 4 (c9round 4)).get 1 = some c9childW) ∧
    ((update_frame c9env 4 (c9round 4)).invLog =
      List.replicate 5 (0, PState.active)) ∧
    ((c9round 5).get 1 = some c9childA) ∧
    ((c9round 5).invLog =
      List.replicate 5 (0, PState.active) ++ [(1, PState.active)]) := by
  refine ⟨?_, ?_, ?_, ?_, ?_, ?_, ?_, ?_, ?_, ?_, ?_, ?_, ?_⟩ <;> decide

theorem stepSim_get_isSome {s t : Scheduler} (h : StepSim s t) (pid : Nat)
    (hs : (s.get pid).isSome) : (t.get pid).isSome := by
  cases hg : s.get pid with
  | none => rw [hg] at hs; cases hs
  | some p =>
      obtain ⟨q, hq, _⟩ := h.2.2.2 pid p hg
      rw [hq]
      rfl

theorem execVisit_domPres (env : List ProcSpec) (fuel : Nat) (s : Scheduler)
    (pid0 pid : Nat) (hs : (s.get pid).isSome) :
    ((execVisit env fuel s pid0).get pid).isSome := by
  unfold execVisit
  split
  · exact hs
  next p hg =>
    split
    · split
      · exact hs
      next sp hsp =>
        apply stepSim_get_isSome
          (stepSim_runLevel (spawnFuel env fuel) (stepSim_spawnFuel env fuel) _ _ _)
        have h2 := modifyProc_get
          { s with invLog := s.invLog ++ [(pid0, p.state)] } pid0
          (fun q => { q with runCount := q.runCount + 1, ranFlag := true })
          (fun r => rfl) pid
        rw [h2]
        cases hg2 : s.get pid with
        | none => rw [hg2] at hs; cases hs
        | some r =>
            have : Scheduler.get { s with invLog := s.invLog ++ [(pid0, p.state)] } pid =
                s.get pid := rfl
            rw [this, hg2]
            rfl
    · exact hs

theorem executionPass_domPres (env : List ProcSpec) (fuel : Nat) (c : Cadence)
    (s : Scheduler) (pid : Nat) (hs : (s.get pid).isSome) :
    ((executionPass env fuel c s).get pid).isSome := by
  have hfold := foldl_rel (execVisit env fuel)
    (fun a b => ∀ q, (a.get q).isSome → (b.get q).isSome)
    (fun _ _ h => h) (fun h1 h2 q hq => h2 q (h1 q hq))
    (fun t a q hq => execVisit_domPres env fuel t a q hq)
    ((s.procs.filter (fun p => decide (p.cadence = c))).map Process.pid) s
  exact hfold pid hs

/-- C5: killing a process from inside an update callback removes nothing from
the registry during the pass — every PID present before the execution pass
is still present after execution and accounting — and in the concrete
kill-mid-pass scenario (killer PID 0 kills PID 1, bystander PID 2): at the
pre-sweep point all three PIDs are present, the victim's state is already
`DEAD`, the killer and the bystander were each invoked exactly once and the
victim not at all; only the end-of-pass sweep erases the victim, the others
surviving. -/
theorem C5_mid_pass_kill_safe :
    (∀ (env : List ProcSpec) (fuel : Nat) (c : Cadence) (s : Scheduler) (pid : Nat),
        (s.get pid).isSome →
        ((accountingPass (executionPass env fuel c s)).get pid).isSome) ∧
    ((c5mid.get 0).isSome ∧ (c5mid.get 1).map Process.state = some PState.dead ∧
      (c5mid.get 2).isSome) ∧
    (c5mid.invLog = [(0, PState.active), (2, PState.active)]) ∧
    ((cadenceUpdate c5env 4 Cadence.per_frame c5start).get 1 = none) ∧
    ((cadenceUpdate c5env 4 Cadence.per_frame c5start).get 0).isSome ∧
    ((cadenceUpdate c5env 4 Cadence.per_frame c5start).get 2).isSome := by
  refine ⟨?_, by decide, by decide, by decide, by decide, by decide⟩
  intro env fuel c s pid hs
  rw [accountingPass_get]
  have := executionPass_domPres env fuel c s pid hs
  cases hg : (executionPass env fuel c s).get pid with
  | none => rw [hg] at this; cases this
  | some p => rfl

/-- Witness for C5's universally quantified no-removal conjunct at a concrete
registry and pass. -/
theorem C5_mid_pass_kill_safe_witness :
    ((accountingPass (executionPass c9env 4 Cadence.per_frame c4start)).get 0).isSome :=
  C5_mid_pass_kill_safe.1 c9env 4 Cadence.per_frame c4start 0 (by decide)

theorem get_insertNew_self (s : Scheduler) (parent : Option Nat) (idx : Nat)
    (sp : ProcSpec) (hwf1 : ∀ p ∈ s.procs, p.pid < s.nextPid) :
    (insertNew s parent idx sp).get s.nextPid = some (mkProc s.nextPid parent idx sp) := by
  unfold insertNew Scheduler.get
  rw [List.find?_append]
  have h1 : s.procs.find? (fun p => decide (p.pid = s.nextPid)) = none := by
    rw [List.find?_eq_none]
    intro p hp
    simp only [decide_eq_true_eq]
    exact Nat.ne_of_lt (hwf1 p hp)
  rw [h1]
  simp [mkProc]

theorem spawnFuel_succ_eq {env : List ProcSpec} {idx : Nat} {sp : ProcSpec}
    (hsp : env.get? idx = some sp) (f : Nat) (parent : Option Nat) (s : Scheduler) :
    spawnFuel env (Nat.succ f) parent idx s =
      promote (spawnCore (spawnFuel env f) parent idx sp s) s.nextPid := by
  unfold spawnFuel
  rw [hsp]

theorem create_process_succ_eq {env : List ProcSpec} {idx : Nat} {sp : ProcSpec}
    (hsp : env.get? idx = some sp) (f : Nat) (parent : Option Nat) (s : Scheduler) :
    create_process env (Nat.succ f) parent idx s =
      (spawnFuel env (Nat.succ f) parent idx s, some s.nextPid) := by
  unfold create_process
  rw [hsp]

theorem spawnCore_get (env : List ProcSpec) (f : Nat) (parent : Option Nat) (idx : Nat)
    (sp : ProcSpec) (s : Scheduler) (hwf1 : ∀ p ∈ s.procs, p.pid < s.nextPid) :
    ∃ q, (spawnCore (spawnFuel env f) parent idx sp s).get s.nextPid = some q ∧
      q.pid = s.nextPid ∧ q.parent = parent ∧ q.specIdx = idx ∧ q.cadence = sp.cadence := by
  have hins := get_insertNew_self s parent idx sp hwf1
  have hsim := stepSim_runLevel (spawnFuel env f) (stepSim_spawnFuel env f) s.nextPid
    (sp.onInit s.nextPid parent) (insertNew s parent idx sp)
  obtain ⟨q, hq, e1, e2, e3, e4⟩ := hsim.2.2.2 s.nextPid _ hins
  exact ⟨q, hq, by rw [e1]; rfl, by rw [e2]; rfl, by rw [e3]; rfl, by rw [e4]; rfl⟩

theorem promoteProc_idFields (p : Process) : idFieldsEq (promoteProc p) p := by
  unfold promoteProc
  split <;> exact ⟨rfl, rfl, rfl, rfl⟩

theorem promoteProc_not_inactive (q : Process) :
    (promoteProc q).state ≠ PState.inactive := by
  unfold promoteProc
  split
  · intro hc
    cases hc
  next h => exact h

/-- C10: the internal placeholder state is never observable through
`create_process`.  For any variant and any well-formed registry: the process
inspected right after its `initialize()` ran has some state `q.state`; the
promotion step makes the returned process `ACTIVE` exactly when `q.state` is
still the placeholder and otherwise leaves `q` completely untouched (e.g.
`PAUSED` after a self-`sleep` in `initialize()`), and whatever `create_process`
returns, the new process's state is never the placeholder. -/
theorem C10_placeholder_unobservable (env : List ProcSpec) (f : Nat)
    (parent : Option Nat) (idx : Nat) (s : Scheduler) (sp : ProcSpec)
    (hwf : Wf s) (hsp : env.get? idx = some sp) :
    ∃ q, (spawnCore (spawnFuel env f) parent idx sp s).get s.nextPid = some q ∧
      (q.state = PState.inactive →
        (spawnFuel env (Nat.succ f) parent idx s).get s.nextPid =
          some { q with state := PState.active }) ∧
      (q.state ≠ PState.inactive →
        (spawnFuel env (Nat.succ f) parent idx s).get s.nextPid = some q) ∧
      (∀ r, (spawnFuel env (Nat.succ f) parent idx s).get s.nextPid = some r →
        r.state ≠ PState.inactive) := by
  obtain ⟨q, hq, _, _, _, _⟩ := spawnCore_get env f parent idx sp s hwf.1
  have hpro : (spawnFuel env (Nat.succ f) parent idx s).get s.nextPid =
      some (promoteProc q) := by
    rw [spawnFuel_succ_eq hsp]
    exact modifyProc_get_self promoteProc (fun p => (promoteProc_idFields p).1) hq
  refine ⟨q, hq, ?_, ?_, ?_⟩
  · intro hi
    rw [hpro]
    unfold promoteProc
    rw [if_pos hi]
  · intro hi
    rw [hpro]
    unfold promoteProc
    rw [if_neg hi]
  · intro r hr
    rw [hpro] at hr
    have hrq : promoteProc q = r := Option.some_inj.mp hr
    rw [← hrq]
    exact promoteProc_not_inactive q

/-- Witness for C10 at the design notes' `delayed_event`, whose
`initialize()` calls `sleep(10)`, created in the empty registry. -/
theorem C10_placeholder_unobservable_witness :
    ∃ q, (spawnCore (spawnFuel delayedEnv 0) none 0 delayedSpec
        Scheduler.empty).get Scheduler.empty.nextPid = some q ∧
      (q.state = PState.inactive →
        (spawnFuel delayedEnv 1 none 0 Scheduler.empty).get Scheduler.empty.nextPid =
          some { q with state := PState.active }) ∧
      (q.state ≠ PState.inactive →
        (spawnFuel delayedEnv 1 none 0 Scheduler.empty).get Scheduler.empty.nextPid =
          some q) ∧
      (∀ r, (spawnFuel delayedEnv 1 none 0 Scheduler.empty).get Scheduler.empty.nextPid =
          some r → r.state ≠ PState.inactive) :=
  C10_placeholder_unobservable delayedEnv 0 none 0 Scheduler.empty delayedSpec
    (by unfold Wf; decide) rfl

/-- C7: `create_process<T>(parent_pid, ...)` without allocation exhaustion:
it returns the fresh PID taken from the counter, which differs from the PID
of every live process; the new process is retrievable and carries that PID,
the recorded parent, the requested variant and its cadence, and is never in
the placeholder state (`ACTIVE` exactly if `initialize()` left the state
alone, by C10); and its `initialize()` hook was invoked exactly once. -/
theorem C7_create_process_contract (env : List ProcSpec) (f : Nat)
    (parent : Option Nat) (idx : Nat) (s : Scheduler) (sp : ProcSpec)
    (hwf : Wf s) (hsp : env.get? idx = some sp) :
    (create_process env (Nat.succ f) parent idx s).2 = some s.nextPid ∧
    (∀ p ∈ s.procs, p.pid ≠ s.nextPid) ∧
    (∃ q, (create_process env (Nat.succ f) parent idx s).1.get s.nextPid = some q ∧
       q.pid = s.nextPid ∧ q.parent = parent ∧ q.specIdx = idx ∧
       q.cadence = sp.cadence ∧ q.state ≠ PState.inactive) ∧
    (create_process env (Nat.succ f) parent idx s).1.initLog.count s.nextPid = 1 := by
  have hcp := create_process_succ_eq hsp f parent s
  obtain ⟨q, hq, e1, e2, e3, e4⟩ := spawnCore_get env f parent idx sp s hwf.1
  have hpro : (spawnFuel env (Nat.succ f) parent idx s).get s.nextPid =
      some (promoteProc q) := by
    rw [spawnFuel_succ_eq hsp]
    exact modifyProc_get_self promoteProc (fun p => (promoteProc_idFields p).1) hq
  refine ⟨by rw [hcp], ?_, ?_, ?_⟩
  · intro p hp
    exact Nat.ne_of_lt (hwf.1 p hp)
  · refine ⟨promoteProc q, by rw [hcp]; exact hpro, ?_, ?_, ?_, ?_,
      promoteProc_not_inactive q⟩
    · rw [(promoteProc_idFields q).1, e1]
    · rw [(promoteProc_idFields q).2.1, e2]
    · rw [(promoteProc_idFields q).2.2.1, e3]
    · rw [(promoteProc_idFields q).2.2.2, e4]
  · rw [hcp]
    show (spawnFuel env (Nat.succ f) parent idx s).initLog.count s.nextPid = 1
    rw [spawnFuel_succ_eq hsp]
    have hps : (promote (spawnCore (spawnFuel env f) parent idx sp s) s.nextPid).initLog =
        (spawnCore (spawnFuel env f) parent idx sp s).initLog := rfl
    rw [hps]
    have hsim := stepSim_runLevel (spawnFuel env f) (stepSim_spawnFuel env f) s.nextPid
      (sp.onInit s.nextPid parent) (insertNew s parent idx sp)
    obtain ⟨d, hd, hb⟩ := hsim.2.2.1
    unfold spawnCore
    rw [hd]
    have hil : (insertNew s parent idx sp).initLog = s.initLog ++ [s.nextPid] := rfl
    rw [hil, List.count_append, List.count_append]
    have h0 : s.initLog.count s.nextPid = 0 := by
      rw [List.count_eq_zero]
      intro hmem
      have := hwf.2.2 s.nextPid hmem
      omega
    have h1 : ([s.nextPid] : List Nat).count s.nextPid = 1 := by simp
    have h2 : d.count s.nextPid = 0 := by
      rw [List.count_eq_zero]
      intro hmem
      have hle := (hb s.nextPid hmem).1
      have : (insertNew s parent idx sp).nextPid = s.nextPid + 1 := rfl
      omega
    rw [h0, h1, h2]

/-- Witness for C7 at the `delayed_event` variant created in the empty
registry with fuel 1. -/
theorem C7_create_process_contract_witness :
    (create_process delayedEnv 1 none 0 Scheduler.empty).2 =
        some Scheduler.empty.nextPid ∧
    (create_process delayedEnv 1 none 0 Scheduler.empty).1.initLog.count
        Scheduler.empty.nextPid = 1 :=
  ⟨(C7_create_process_contract delayedEnv 0 none 0 Scheduler.empty delayedSpec
      (by unfold Wf; decide) rfl).1,
   (C7_create_process_contract delayedEnv 0 none 0 Scheduler.empty delayedSpec
      (by unfold Wf; decide) rfl).2.2.2⟩

theorem execVisit_get_ne_empty (env : List ProcSpec)
    (henv : ∀ i spi, env.get? i = some spi → ∀ a b, spi.onUpdate a b = [])
    (fuel : Nat) (t : Scheduler) (a pid : Nat) (hne : pid ≠ a) :
    (execVisit env fuel t a).get pid = t.get pid := by
  unfold execVisit
  split
  · rfl
  next q hg =>
    split
    · split
      · rfl
      next sp hsp =>
        rw [henv q.specIdx sp hsp a q.runCount]
        show (modifyProc { t with invLog := t.invLog ++ [(a, q.state)] } a
            (fun r => { r with runCount := r.runCount + 1, ranFlag := true })).get pid =
          t.get pid
        rw [modifyProc_get_ne
          (fun r => { r with runCount := r.runCount + 1, ranFlag := true })
          (fun r => rfl) hne]
        rfl
    · rfl

theorem execVisit_self_invLog (env : List ProcSpec) (fuel : Nat) (t : Scheduler)
    (pid : Nat) (q : Process) (sp : ProcSpec) (hget : t.get pid = some q)
    (hact : q.state = PState.active) (hsp : env.get? q.specIdx = some sp) :
    (execVisit env fuel t pid).invLog = t.invLog ++ [(pid, PState.active)] := by
  unfold execVisit
  split
  next heq =>
    rw [heq] at hget
    cases hget
  next p heq =>
    have hpq : p = q := by
      rw [heq] at hget
      exact Option.some_inj.mp hget
    subst hpq
    split
    · split
      next hsp2 =>
        rw [hsp] at hsp2
        cases hsp2
      next sp2 hsp2 =>
        rw [runLevel_invLog _ (stepSim_spawnFuel env fuel)]
        rw [hact]
        rfl
    next hact2 => exact absurd hact hact2

theorem execFold_runs (env : List ProcSpec)
    (henv : ∀ i spi, env.get? i = some spi → ∀ a b, spi.onUpdate a b = [])
    (fuel : Nat) :
    ∀ (pids : List Nat) (t : Scheduler) (pid : Nat) (q : Process) (sp : ProcSpec),
      t.get pid = some q → q.state = PState.active → env.get? q.specIdx = some sp →
      pid ∈ pids →
      ∃ l, (pids.foldl (execVisit env fuel) t).invLog = t.invLog ++ l ∧
        (pid, PState.active) ∈ l := by
  intro pids
  induction pids with
  | nil =>
      intro t pid q sp _ _ _ hmem
      cases hmem
  | cons a rest ih =>
      intro t pid q sp hget hact hsp hmem
      by_cases hpa : pid = a
      · subst hpa
        have hlog := execVisit_self_invLog env fuel t pid q sp hget hact hsp
        obtain ⟨l2, hl2, _⟩ := foldl_rel (execVisit env fuel) LogGuarded logGuarded_refl
          logGuarded_trans (execVisit_logGuarded env fuel) rest (execVisit env fuel t pid)
        refine ⟨[(pid, PState.active)] ++ l2, ?_, by simp⟩
        show (rest.foldl (execVisit env fuel) (execVisit env fuel t pid)).invLog =
          t.invLog ++ ([(pid, PState.active)] ++ l2)
        rw [hl2, hlog, List.append_assoc]
      · have hget2 : (execVisit env fuel t a).get pid = some q := by
          rw [execVisit_get_ne_empty env henv fuel t a pid hpa]
          exact hget
        have hmem2 : pid ∈ rest := by
          rcases List.mem_cons.mp hmem with h | h
          · exact absurd h hpa
          · exact h
        obtain ⟨l, hl, hin⟩ := ih (execVisit env fuel t a) pid q sp hget2 hact hsp hmem2
        obtain ⟨la, hla, _⟩ := execVisit_logGuarded env fuel t a
        refine ⟨la ++ l, ?_, by simp [hin]⟩
        show (rest.foldl (execVisit env fuel) (execVisit env fuel t a)).invLog =
          t.invLog ++ (la ++ l)
        rw [hl, hla, List.append_assoc]

/-- C6: within one cadence's update the state-transition pass runs over all
processes of that cadence strictly before any update callback: a process
that is `WAITING` with a satisfied wait condition is `ACTIVE` already after
the transition sub-pass, and (here for an environment of processes that
issue no requests, so that no third party interferes mid-pass) its own
update callback is then invoked within the same pass's dispatch — its
invocation is among the log entries this very `cadenceUpdate` appended. -/
theorem C6_transition_pass_before_dispatch (env : List ProcSpec) (fuel : Nat)
    (c : Cadence) (s : Scheduler) (p : Process) (sp : ProcSpec)
    (henv : ∀ i spi, env.get? i = some spi → ∀ a b, spi.onUpdate a b = [])
    (hwf : Wf s) (hmem : p ∈ s.procs) (hcad : p.cadence = c)
    (hwait : p.state = PState.waiting) (hgone : targetGone s p.waitTarget = true)
    (hsp : env.get? p.specIdx = some sp) :
    (transitionPass c s).get p.pid = some { p with state := PState.active } ∧
    ∃ l, (cadenceUpdate env fuel c s).invLog = s.invLog ++ l ∧
      (p.pid, PState.active) ∈ l := by
  have hget : s.get p.pid = some p := get_of_mem_nodup hmem hwf.2.1
  have hts : transitionStep s p = { p with state := PState.active } := by
    unfold transitionStep
    rw [hwait, hgone]
    simp
  have htrans : (transitionPass c s).get p.pid = some { p with state := PState.active } := by
    rw [transitionPass_get, hget]
    simp [hcad, hts]
  refine ⟨htrans, ?_⟩
  have hp1 : ({ p with state := PState.active } : Process) ∈ (transitionPass c s).procs := by
    show _ ∈ s.procs.map (fun r => if r.cadence = c then transitionStep s r else r)
    refine List.mem_map.mpr ⟨p, hmem, ?_⟩
    rw [if_pos hcad, hts]
  have hmem1 : p.pid ∈ (((transitionPass c s).procs.filter
      (fun r => decide (r.cadence = c))).map Process.pid) := by
    refine List.mem_map.mpr ⟨{ p with state := PState.active }, ?_, rfl⟩
    refine List.mem_filter.mpr ⟨hp1, ?_⟩
    simp [hcad]
  obtain ⟨l, hl, hin⟩ := execFold_runs env henv fuel _ (transitionPass c s) p.pid
    { p with state := PState.active } sp htrans rfl hsp hmem1
  exact ⟨l, hl, hin⟩

/-- Witness for C6: the waiting process of `c4start` (whose wait-target never
existed) wakes in the transition sub-pass of a tick update and is invoked in
that same tick's dispatch. -/
theorem C6_transition_pass_before_dispatch_witness :
    (transitionPass Cadence.per_tick c4start).get c4proc.pid =
        some { c4proc with state := PState.active } ∧
    ∃ l, (cadenceUpdate [noopSpec Cadence.per_tick] 4 Cadence.per_tick c4start).invLog =
        c4start.invLog ++ l ∧ (c4proc.pid, PState.active) ∈ l :=
  C6_transition_pass_before_dispatch [noopSpec Cadence.per_tick] 4 Cadence.per_tick
    c4start c4proc (noopSpec Cadence.per_tick)
    (by
      intro i spi h a b
      cases i with
      | zero =>
          simp only [List.get?] at h
          injection h with h2
          rw [← h2]
          rfl
      | succ j => simp [List.get?] at h)
    (by unfold Wf; decide) (by decide) rfl rfl (by decide) rfl
